import Mathlib

/-!
Verification of the krill RPKI CA / Publication Server core against its
specification.  The Rust source is shallowly embedded: pure functions become
Lean functions, Rust enums become inductives, `Result` becomes `Except`,
stateful command processing becomes explicit state passing.  Where the
deciding code is not part of the provided sources (only its callers, error
types or tests are), the definition is modelled from the specification and
its doc comment says so.
-/

namespace KrillModel

/-- Printable identifier for a CA or publisher (`Handle` in `api/admin.rs`). -/
abbrev Handle := String

/-- An rsync URI, modelled as its list of path segments. -/
abbrev Uri := List String

/-- Object content bytes. -/
abbrev Bytes := List Nat

/-- A content hash (SHA-256 in the source; modelled as an injective function
of the bytes). -/
abbrev Hash := List Nat

/-- Content hash of object bytes.  The source hashes with SHA-256; the model
keeps only the property that the hash is determined by the content. -/
def hashOf (b : Bytes) : Hash := b

/-- uriUnder u jail holds when the URI u lies under the rsync base URI jail,
i.e. jail is a path prefix of u. -/
def uriUnder : Uri → Uri → Bool
  | _, [] => true
  | [], _ :: _ => false
  | a :: u, b :: j => decide (a = b) && uriUnder u j

/-- Two jails overlap when one is a path prefix of the other
(spec: publishers' jails must be pairwise non-overlapping). -/
def jailsOverlap (j1 j2 : Uri) : Bool :=
  uriUnder j1 j2 || uriUnder j2 j1

/-- A current object owned by a publisher: URI plus content bytes
(the hash is derived from the bytes). -/
structure ObjEntry where
  uri : Uri
  bytes : Bytes
deriving DecidableEq, Repr

/-- The hash of a current object. -/
def ObjEntry.hash (o : ObjEntry) : Hash := hashOf o.bytes

/-- One atom of an RFC 8181 publish delta: publish a new object, update an
existing one (referencing the replaced hash), or withdraw one by hash. -/
inductive DeltaAtom where
  | publish (uri : Uri) (bytes : Bytes)
  | update (uri : Uri) (bytes : Bytes) (oldHash : Hash)
  | withdraw (uri : Uri) (oldHash : Hash)
deriving DecidableEq, Repr

/-- The URI an atom touches. -/
def DeltaAtom.atomUri : DeltaAtom → Uri
  | .publish u _ => u
  | .update u _ _ => u
  | .withdraw u _ => u

/-- A publisher known to the Publication Server: handle, allowed rsync base
URI (the jail), deactivation flag, and current object set. -/
structure Publisher where
  handle : Handle
  jailUri : Uri
  deactivated : Bool
  objects : List ObjEntry
deriving DecidableEq, Repr

/-- Publication Server aggregate state: the list of publishers
(handles unique). -/
structure PubServerState where
  publishers : List Publisher
deriving DecidableEq, Repr

/-- RFC 8181 verification errors, mirroring `VerificationError` in
`krill_commons::api::rrdp` (consumed in `daemon/src/endpoints.rs`). -/
inductive VerificationError where
  | noObjectForHashAndOrUri (uri : Uri)
  | objectAlreadyPresent (uri : Uri)
  | uriOutsideJail (uri : Uri) (jail : Uri)
deriving DecidableEq, Repr

/-- Typed errors of the Publication Server aggregate, mirroring
`krill_pubd::Error` and `PublisherError` as matched in
`daemon/src/endpoints.rs`. -/
inductive PubError where
  | duplicatePublisher (h : Handle)
  | unknownPublisher (h : Handle)
  | baseUriOverlap (j1 j2 : Uri)
  | publisherDeactivated (h : Handle)
  | verification (e : VerificationError)
deriving DecidableEq, Repr

/-- Commands of the Publication Server aggregate (spec section 4.3). -/
inductive PubCommand where
  | addPublisher (h : Handle) (jail : Uri)
  | deactivatePublisher (h : Handle)
  | publishDelta (h : Handle) (delta : List DeltaAtom)
deriving DecidableEq, Repr

/-- Events of the Publication Server aggregate (spec section 4.3). -/
inductive PubEvent where
  | publisherAdded (h : Handle) (jail : Uri)
  | publisherDeactivated (h : Handle) (withdraws : List (Uri × Hash))
  | published (h : Handle) (delta : List DeltaAtom)
deriving DecidableEq, Repr

/-- Look up a publisher by handle. -/
def findPublisher (s : PubServerState) (h : Handle) : Option Publisher :=
  s.publishers.find? (fun p => p.handle = h)

/-- Whether the object set holds an object at this URI. -/
def hasUri (objs : List ObjEntry) (u : Uri) : Bool :=
  objs.any (fun o => o.uri = u)

/-- Whether the object set holds an object at this URI with this hash. -/
def hasUriHash (objs : List ObjEntry) (u : Uri) (h : Hash) : Bool :=
  objs.any (fun o => o.uri = u && o.hash = h)

/-- Modelled from the spec: RFC 8181 delta verification of the Publication
Server (the verifying code of `krill_pubd` is not among the provided
sources; only its error enum and callers are).  Spec section 4.3 `Publish`:
verify (b) every delta atom's URI under the publisher's jail; (c) every
`publish` URI not currently present for this publisher; (d) every
`update`/`withdraw` URI currently present with matching hash.  The checks
are made in the spec's order, so a jail violation anywhere in the delta is
reported before any presence error. -/
def verifyDelta (pbl : Publisher) (delta : List DeltaAtom) : Option VerificationError :=
  match delta.find? (fun a => !(uriUnder a.atomUri pbl.jailUri)) with
  | some a => some (.uriOutsideJail a.atomUri pbl.jailUri)
  | none =>
    match delta.find? (fun a =>
        match a with
        | .publish u _ => hasUri pbl.objects u
        | _ => false) with
    | some a => some (.objectAlreadyPresent a.atomUri)
    | none =>
      match delta.find? (fun a =>
          match a with
          | .update u _ oldH => !(hasUriHash pbl.objects u oldH)
          | .withdraw u oldH => !(hasUriHash pbl.objects u oldH)
          | .publish _ _ => false) with
      | some a => some (.noObjectForHashAndOrUri a.atomUri)
      | none => none

/-- Apply one delta atom to an object set. -/
def applyAtom (objs : List ObjEntry) : DeltaAtom → List ObjEntry
  | .publish u b => objs ++ [⟨u, b⟩]
  | .update u b _ => objs.map (fun o => if o.uri = u then ⟨u, b⟩ else o)
  | .withdraw u _ => objs.filter (fun o => o.uri ≠ u)

/-- Apply a whole delta to an object set. -/
def applyDelta (objs : List ObjEntry) (delta : List DeltaAtom) : List ObjEntry :=
  delta.foldl applyAtom objs

/-- Modelled from the spec: command processing of the Publication Server
aggregate (spec section 4.3; the aggregate implementation of `krill_pubd`
is not among the provided sources).  As required by
`Aggregate::process_command` in `commons/eventsourcing/agg.rs`, the state
is taken immutably and the result is either a typed error or a list of
events that still need to be applied. -/
def processPubCommand (s : PubServerState) : PubCommand → Except PubError (List PubEvent)
  | .addPublisher h jail =>
    if (findPublisher s h).isSome then
      .error (.duplicatePublisher h)
    else
      match s.publishers.find? (fun p => jailsOverlap p.jailUri jail) with
      | some p => .error (.baseUriOverlap p.jailUri jail)
      | none => .ok [.publisherAdded h jail]
  | .deactivatePublisher h =>
    match findPublisher s h with
    | none => .error (.unknownPublisher h)
    | some p => .ok [.publisherDeactivated h (p.objects.map (fun o => (o.uri, o.hash)))]
  | .publishDelta h delta =>
    match findPublisher s h with
    | none => .error (.unknownPublisher h)
    | some p =>
      if p.deactivated then .error (.publisherDeactivated h)
      else
        match verifyDelta p delta with
        | some e => .error (.verification e)
        | none => .ok [.published h delta]

/-- Replace the publisher with the given handle using f, leaving the other
publishers untouched. -/
def setPublisher (s : PubServerState) (h : Handle) (f : Publisher → Publisher) : PubServerState :=
  ⟨s.publishers.map (fun p => if p.handle = h then f p else p)⟩

/-- Apply one committed event to the Publication Server state
(side-effect-free, total, as `Aggregate::apply` requires). -/
def applyPubEvent (s : PubServerState) : PubEvent → PubServerState
  | .publisherAdded h jail => ⟨s.publishers ++ [⟨h, jail, false, []⟩]⟩
  | .publisherDeactivated h _ =>
    setPublisher s h (fun p => { p with deactivated := true, objects := [] })
  | .published h delta =>
    setPublisher s h (fun p => { p with objects := applyDelta p.objects delta })

/-- Apply all events in order, mirroring `Aggregate::apply_all` in
`commons/eventsourcing/agg.rs`. -/
def applyAllPub (s : PubServerState) (events : List PubEvent) : PubServerState :=
  events.foldl applyPubEvent s

/-- One facade step: process the command on the loaded state and commit the
returned events only on success, mirroring the pattern of
`CaServer::ta_publish` in `ca/src/caserver.rs` (process, then update the
store with the events; on error nothing is committed). -/
def stepPub (s : PubServerState) (c : PubCommand) : PubServerState :=
  match processPubCommand s c with
  | .error _ => s
  | .ok events => applyAllPub s events

/-! ## CA aggregate: route authorizations, ROAs and publication -/

/-- An autonomous system number. -/
abbrev Asn := Nat

/-- An IP prefix: address value plus prefix length (address arithmetic kept
abstract as a natural number over 32 bits). -/
structure IpPfx where
  addr : Nat
  len : Nat
deriving DecidableEq, Repr

/-- pfxContains r p: the prefix r covers the prefix p (r is no longer than p
and they agree on r's first len bits). -/
def pfxContains (r p : IpPfx) : Bool :=
  decide (r.len ≤ p.len) &&
    decide (p.addr / 2 ^ (32 - r.len) % 2 ^ r.len = r.addr / 2 ^ (32 - r.len) % 2 ^ r.len)

/-- A route authorization: (ASN, prefix, optional max length), mirroring
`RouteAuthorization` in `src/daemon/ca/routes.rs`. -/
structure RouteAuthorization where
  asn : Asn
  pfx : IpPfx
  maxLength : Option Nat
deriving DecidableEq, Repr

/-- A produced ROA's current object, mirroring `RoaInfo` in
`src/daemon/ca/routes.rs`: object bytes, name, and the optionally replaced
object's hash. -/
structure RoaInfo where
  objectBytes : Bytes
  name : Nat
  replaces : Option Hash
deriving DecidableEq, Repr

/-- Hash of a produced ROA (content-addressed). -/
def RoaInfo.hash (r : RoaInfo) : Hash := hashOf r.objectBytes

/-- ROAs held by a resource class, mirroring `Roas` in
`src/daemon/ca/routes.rs` (a map keyed by the authorization, modelled as an
association list with unique keys). -/
structure Roas where
  inner : List (RouteAuthorization × RoaInfo)
deriving DecidableEq, Repr

/-- Whether an authorization is present. -/
def roasHas (roas : Roas) (a : RouteAuthorization) : Bool :=
  roas.inner.any (fun p => p.1 = a)

/-- Map insert on the association list: replace the binding when the key is
present, append otherwise. -/
def insertRoa (inner : List (RouteAuthorization × RoaInfo))
    (kv : RouteAuthorization × RoaInfo) : List (RouteAuthorization × RoaInfo) :=
  if inner.any (fun p => p.1 = kv.1) then
    inner.map (fun p => if p.1 = kv.1 then kv else p)
  else
    inner ++ [kv]

/-- Map remove on the association list. -/
def removeRoa (inner : List (RouteAuthorization × RoaInfo))
    (a : RouteAuthorization) : List (RouteAuthorization × RoaInfo) :=
  inner.filter (fun p => p.1 ≠ a)

/-- The payload of a `RoaUpdated` event: bindings to insert and keys to
remove (mirroring `RoaUpdates` as consumed by `Roas::updated`). -/
structure RoaUpdates where
  updated : List (RouteAuthorization × RoaInfo)
  removed : List RouteAuthorization
deriving DecidableEq, Repr

/-- Function `Roas::updated` from `src/daemon/ca/routes.rs`: first insert every
updated binding, then remove every removed key. -/
def Roas.updated (roas : Roas) (updates : RoaUpdates) : Roas :=
  ⟨updates.removed.foldl removeRoa (updates.updated.foldl insertRoa roas.inner)⟩

/-- Modelled from the spec: deterministic ROA signing.  `Roas::make_roa` in
`src/daemon/ca/routes.rs` builds the object with the external signing
library; the model only keeps that the produced object is a function of the
authorization. -/
def mkRoaInfo (a : RouteAuthorization) : RoaInfo :=
  ⟨[a.asn, a.pfx.addr, a.pfx.len], a.asn, none⟩

/-- Manifest/CRL validity bookkeeping of a CA: remaining and nominal
lifetime (spec: refresh when remaining lifetime is below half of the
nominal lifetime). -/
structure MftCrlState where
  remaining : Nat
  nominal : Nat
deriving DecidableEq, Repr

/-- The CA aggregate state needed for route authorizations and publication:
certified resources, current ROAs, pending (unpublished) changes, and the
manifest/CRL validity window. -/
structure CertAuth where
  resources : List IpPfx
  roas : Roas
  pendingChanges : Bool
  mft : MftCrlState
deriving DecidableEq, Repr

/-- Typed errors of the CA aggregate for the modelled commands. -/
inductive CaError where
  | duplicateRoute (a : RouteAuthorization)
  | unknownRoute (a : RouteAuthorization)
  | resourcesNotHeld (a : RouteAuthorization)
deriving DecidableEq, Repr

/-- The modelled CA commands: route authorization updates and publish. -/
inductive CaCommand where
  | routeAuthorizationsUpdate (add : List RouteAuthorization) (remove : List RouteAuthorization)
  | publish
deriving DecidableEq, Repr

/-- The modelled CA events. -/
inductive CaEvent where
  | roasUpdated (u : RoaUpdates)
  | published
deriving DecidableEq, Repr

/-- Whether the manifest or CRL is within the refresh threshold (spec:
refresh when remaining lifetime is less than half of the nominal
lifetime). -/
def needsRefresh (m : MftCrlState) : Bool :=
  decide (2 * m.remaining < m.nominal)

/-- Modelled from the spec: CA command processing for
`RouteAuthorizationsUpdate` and `Publish` (the `CertAuth` command handler
is not among the provided sources).  Validation per spec sections 3 and
4.2: added definitions must not duplicate a stored authorization, their
prefixes must be covered by certified resources; removed definitions must
be present.  `Publish` emits a delta only when something changed or the
manifest/CRL is within the refresh threshold, and is a no-op otherwise. -/
def processCaCommand (ca : CertAuth) : CaCommand → Except CaError (List CaEvent)
  | .routeAuthorizationsUpdate add remove =>
    match add.find? (fun a => roasHas ca.roas a) with
    | some a => .error (.duplicateRoute a)
    | none =>
      match add.find? (fun a => !(ca.resources.any (fun r => pfxContains r a.pfx))) with
      | some a => .error (.resourcesNotHeld a)
      | none =>
        match remove.find? (fun a => !(roasHas ca.roas a)) with
        | some a => .error (.unknownRoute a)
        | none => .ok [.roasUpdated ⟨add.map (fun a => (a, mkRoaInfo a)), remove⟩]
  | .publish =>
    if ca.pendingChanges || needsRefresh ca.mft then
      .ok [.published]
    else
      .ok []

/-- Apply one committed CA event (side-effect-free and total, as
`Aggregate::apply` requires): `RoaUpdated` mutates the ROA map via
`Roas::updated` and leaves a publication pending; `Published` clears the
pending flag and renews the manifest/CRL validity window. -/
def applyCaEvent (ca : CertAuth) : CaEvent → CertAuth
  | .roasUpdated u => { ca with roas := ca.roas.updated u, pendingChanges := true }
  | .published =>
    { ca with pendingChanges := false, mft := { ca.mft with remaining := ca.mft.nominal } }

/-- Apply all CA events in order (`Aggregate::apply_all`). -/
def applyAllCa (ca : CertAuth) (events : List CaEvent) : CertAuth :=
  events.foldl applyCaEvent ca

/-- One facade step for the CA: commit events only on success (same pattern
as `CaServer::ta_publish` in `ca/src/caserver.rs`). -/
def stepCa (ca : CertAuth) (c : CaCommand) : CertAuth :=
  match processCaCommand ca c with
  | .error _ => ca
  | .ok events => applyAllCa ca events

/-! ## Key rollover state machine of a resource class -/

/-- A key identifier. -/
abbrev Key := Nat

/-- The key state of a resource class (spec section 3, `ResourceClass`):
`Pending`, `Active(current)`, `RollPending(new, current)`,
`RollNew(new, current)`, `RollOld(current, old)`. -/
inductive KeyState where
  | pending
  | active (k : Key)
  | rollPending (knew kcur : Key)
  | rollNew (knew kcur : Key)
  | rollOld (kcur kold : Key)
deriving DecidableEq, Repr

/-- Inputs driving the key state of one resource class. -/
inductive KeyRollInput where
  | rollInit (knew : Key)
  | certReceived (k : Key)
  | rollActivate
  | revokeConfirmed
deriving DecidableEq, Repr

/-- Modelled from the spec: the per-resource-class key rollover state
machine of section 4.2 (the `CertAuth` key state code is not among the
provided sources; its states appear in `ResourceClassKeysInfo` matches in
`daemon/src/test.rs` and the `KeyrollPendingKeyAdded` event in
`daemon/src/ca/events.rs`).  Transitions: Pending goes to Active on cert
receipt; Active(K) goes to RollPending(Knew, K) on KeyRollInit;
RollPending(Knew, K) goes to RollNew(Knew, K) when the cert for Knew is
received; RollNew(Knew, K) goes to RollOld(Knew, K) on KeyRollActivate
(the new key becomes current); RollOld(K, Kold) goes to Active(K) when the
revocation of Kold is confirmed.  Any other input is rejected. -/
def keyStateStep : KeyState → KeyRollInput → Option KeyState
  | .pending, .certReceived k => some (.active k)
  | .active k, .rollInit knew => some (.rollPending knew k)
  | .rollPending knew k, .certReceived k2 =>
    if k2 = knew then some (.rollNew knew k) else none
  | .rollNew knew k, .rollActivate => some (.rollOld knew k)
  | .rollOld k _, .revokeConfirmed => some (.active k)
  | _, _ => none

/-- The current keys of a key state: the single key that signs published
objects, when there is one. -/
def currentKeys : KeyState → List Key
  | .pending => []
  | .active k => [k]
  | .rollPending _ k => [k]
  | .rollNew _ k => [k]
  | .rollOld k _ => [k]

/-! ## Aggregate event log and version contiguity -/

/-- A persisted event envelope, mirroring `StoredEvent`: aggregate handle,
version, payload (`IniDet::init` in `daemon/src/ca/events.rs` builds the
init envelope with version 0). -/
structure StoredEventRec (D : Type) where
  handle : Handle
  version : Nat
  details : D
deriving DecidableEq, Repr

/-- The init event envelope: version 0, as in `Ini::new(handle, 0, ...)` in
`IniDet::init`. -/
def iniNew {D : Type} (h : Handle) (d : D) : StoredEventRec D := ⟨h, 0, d⟩

/-- Number a list of event payloads with consecutive versions starting at
v. -/
def numberFrom {D : Type} (h : Handle) (v : Nat) : List D → List (StoredEventRec D)
  | [] => []
  | d :: ds => ⟨h, v, d⟩ :: numberFrom h (v + 1) ds

/-- Modelled from the spec: the store commit appends events as the next
contiguous versions (spec section 4.1 `update`; `DiskAggregateStore` is not
among the provided sources). -/
def commitEvents {D : Type} (h : Handle) (log : List (StoredEventRec D)) (ds : List D) :
    List (StoredEventRec D) :=
  log ++ numberFrom h log.length ds

/-- The committed event logs reachable for one aggregate: created by an init
event at version 0, extended only by commits of the next contiguous
versions. -/
inductive ReachableLog {D : Type} (h : Handle) : List (StoredEventRec D) → Prop where
  | init (d : D) : ReachableLog h [iniNew h d]
  | commit {log : List (StoredEventRec D)} (ds : List D) :
      ReachableLog h log → ReachableLog h (commitEvents h log ds)

/-- The versions carried by a log, in order. -/
def logVersions {D : Type} (log : List (StoredEventRec D)) : List Nat :=
  log.map (fun e => e.version)

/-! ## RRDP delta pruning -/

/-- One RRDP delta record: serial plus the delta's atoms. -/
structure DeltaRec where
  serial : Nat
  atoms : List DeltaAtom
deriving DecidableEq, Repr

/-- Approximate byte size of a delta atom (content bytes for publish and
update, the URI length for a withdraw). -/
def atomSize : DeltaAtom → Nat
  | .publish _ b => b.length
  | .update _ b _ => b.length
  | .withdraw u _ => u.length

/-- Size of a delta record. -/
def DeltaRec.size (d : DeltaRec) : Nat := (d.atoms.map atomSize).sum

/-- Combined size of retained deltas. -/
def deltasSize (ds : List DeltaRec) : Nat := (ds.map DeltaRec.size).sum

/-- Size of a snapshot (the current object set). -/
def snapshotSizeOf (snap : List ObjEntry) : Nat := (snap.map (fun o => o.bytes.length)).sum

/-- RRDP state: session serial, current snapshot, and the retained deltas
(newest first; pruning drops from the tail, i.e. the oldest). -/
structure RrdpState where
  serial : Nat
  snapshot : List ObjEntry
  deltas : List DeltaRec
deriving DecidableEq, Repr

/-- Pruning loop with explicit fuel (the deque length suffices since every
iteration drops one record). -/
def pruneGo (bound snapSize : Nat) : Nat → List DeltaRec → List DeltaRec
  | 0, ds => ds
  | n + 1, ds =>
    if deltasSize ds ≤ snapSize ∧ ds.length ≤ bound then ds
    else pruneGo bound snapSize n ds.dropLast

/-- Modelled from the spec: prune deltas from the tail while the sum of the
retained delta sizes exceeds the snapshot size or the count exceeds the
bound (spec section 4.3 RRDP timeline; the pruning code of the RRDP server
is not among the provided sources, only the test
`tests::should_publish` in `src/repo/repository.rs`). -/
def pruneDeltas (bound snapSize : Nat) (ds : List DeltaRec) : List DeltaRec :=
  pruneGo bound snapSize ds.length ds

/-- Modelled from the spec: one successful RRDP publication (spec section
4.3): increment the serial, recompute the snapshot from the previous
snapshot plus the delta, push the new delta record, prune from the tail. -/
def publishRrdp (bound : Nat) (s : RrdpState) (delta : List DeltaAtom) : RrdpState :=
  let serial := s.serial + 1
  let snapshot := applyDelta s.snapshot delta
  let deltas := pruneDeltas bound (snapshotSizeOf snapshot) (⟨serial, delta⟩ :: s.deltas)
  ⟨serial, snapshot, deltas⟩

/-! ## HTTP status mapping of the API layer (`daemon/src/endpoints.rs`) -/

/-- The HTTP status codes used by the embedded mapping. -/
inductive StatusCode where
  | ok
  | badRequest
  | forbidden
  | conflict
  | internalServerError
  | badGateway
deriving DecidableEq, Repr

/-- The `PublisherError` variants as matched in `daemon/src/endpoints.rs`. -/
inductive PublisherErrorT where
  | deactivated
  | verificationError (e : VerificationError)
deriving DecidableEq, Repr

/-- The `RrdpServerError` variants as matched in `daemon/src/endpoints.rs`. -/
inductive RrdpServerErrorT where
  | ioError
deriving DecidableEq, Repr

/-- The `krill_pubd::Error` variants as matched in `daemon/src/endpoints.rs`. -/
inductive PubdErrorT where
  | ioError
  | invalidBaseUri
  | invalidHandle
  | duplicatePublisher
  | unknownPublisher
  | concurrentModification
  | publisherError (e : PublisherErrorT)
  | rrdpServerError (e : RrdpServerErrorT)
  | aggregateStoreError
deriving DecidableEq, Repr

/-- The `krillserver::Error` variants as matched in `daemon/src/endpoints.rs`. -/
inductive KrillServerErrorT where
  | ioError
  | pubServer (e : PubdErrorT)
  | proxyServer
  | signerError
  | caServerError
  | pubClientError
deriving DecidableEq, Repr

/-- Mapping `ErrorToStatus for PublisherError` in `daemon/src/endpoints.rs`. -/
def statusOfPublisherError : PublisherErrorT → StatusCode
  | .deactivated => .forbidden
  | .verificationError _ => .forbidden

/-- Mapping `ErrorToStatus for RrdpServerError` in `daemon/src/endpoints.rs`. -/
def statusOfRrdpServerError : RrdpServerErrorT → StatusCode
  | .ioError => .internalServerError

/-- Mapping `ErrorToStatus for krill_pubd::Error` in `daemon/src/endpoints.rs`
(lines 322-337). -/
def statusOfPubdError : PubdErrorT → StatusCode
  | .ioError => .internalServerError
  | .invalidBaseUri => .badRequest
  | .invalidHandle => .badRequest
  | .duplicatePublisher => .badRequest
  | .unknownPublisher => .forbidden
  | .concurrentModification => .badRequest
  | .publisherError e => statusOfPublisherError e
  | .rrdpServerError e => statusOfRrdpServerError e
  | .aggregateStoreError => .internalServerError

/-- Mapping `ErrorToStatus for krillserver::Error` in `daemon/src/endpoints.rs`. -/
def statusOfKrillServerError : KrillServerErrorT → StatusCode
  | .ioError => .internalServerError
  | .pubServer e => statusOfPubdError e
  | .proxyServer => .internalServerError
  | .signerError => .internalServerError
  | .caServerError => .internalServerError
  | .pubClientError => .internalServerError

/-! ## Admin endpoints: publisher removal and deactivation -/

/-- The API responses the modelled endpoints produce. -/
inductive HttpAnswer where
  | okEmpty
  | errorAnswer
deriving DecidableEq, Repr

/-- The `publishers::Error` variants relevant to `remove_publisher` in
`src/daemon/api/admin.rs` (other variants collapsed into one). -/
inductive PublisherStoreError where
  | unknownPublisher (h : Handle)
  | other
deriving DecidableEq, Repr

/-- The pubserver state seen by the old admin endpoints: the set of known
publisher handles. -/
structure KrilldState where
  publishers : List Handle
deriving DecidableEq, Repr

/-- Modelled from the spec: the inner publisher removal of the pubserver
(`pubserver`/`PublisherStore::remove_publisher` is not among the provided
sources; `KrillServer::remove_publisher` in `src/krilld/krillserver.rs`
documents that it errors when the publisher did not exist). -/
def removePublisherInner (s : KrilldState) (h : Handle) : Except PublisherStoreError KrilldState :=
  if s.publishers.contains h then
    .ok ⟨s.publishers.filter (fun x => x ≠ h)⟩
  else
    .error (.unknownPublisher h)

/-- Endpoint `remove_publisher` in `src/daemon/api/admin.rs`: answer OK on success,
swallow `UnknownPublisher` into an OK answer, surface any other error. -/
def remove_publisher (s : KrilldState) (h : Handle) : KrilldState × HttpAnswer :=
  match removePublisherInner s h with
  | .ok s1 => (s1, .okEmpty)
  | .error (.unknownPublisher _) => (s, .okEmpty)
  | .error _ => (s, .errorAnswer)

/-- Modelled from the spec and the doc comment on `deactivate_publisher` in
`daemon/src/endpoints.rs` ("Should be idempotent! If it did not exist then
that is just fine"): deactivation of an unknown publisher is answered OK
with no change; otherwise the deactivation command is processed and
committed. -/
def deactivate_publisher_api (s : PubServerState) (h : Handle) : PubServerState × HttpAnswer :=
  match processPubCommand s (.deactivatePublisher h) with
  | .ok events => (applyAllPub s events, .okEmpty)
  | .error (.unknownPublisher _) => (s, .okEmpty)
  | .error _ => (s, .errorAnswer)

/-- Boolean membership of an authorization in a list of authorizations. -/
def keyIn (S : List RouteAuthorization) (a : RouteAuthorization) : Bool :=
  S.any (fun x => x = a)

/-! ## Theorems -/

/-- Claim C1: for every CA or Publication Server aggregate and every command
whose validation precondition is unmet, processing the command returns a
typed error and no events, and the aggregate state observable afterwards is
identical to the state before the command (the command handler takes the
state immutably; events are applied only on successful commit). -/
theorem claim_C1_validation_failure_leaves_aggregate_unchanged :
    (∀ (s : PubServerState) (c : PubCommand) (err : PubError),
      processPubCommand s c = .error err → stepPub s c = s) ∧
    (∀ (ca : CertAuth) (c : CaCommand) (err : CaError),
      processCaCommand ca c = .error err → stepCa ca c = ca) := by
  constructor
  · intro s c err h
    simp [stepPub, h]
  · intro ca c err h
    simp [stepCa, h]

/-- Witness for C1: a deactivation of an unknown publisher and a removal of
an unknown route both fail and leave the respective aggregate unchanged. -/
theorem claim_C1_witness :
    stepPub ⟨[]⟩ (.deactivatePublisher "a") = ⟨[]⟩ ∧
    stepCa ⟨[], ⟨[]⟩, false, ⟨0, 0⟩⟩
      (.routeAuthorizationsUpdate [] [⟨0, ⟨0, 0⟩, none⟩]) = ⟨[], ⟨[]⟩, false, ⟨0, 0⟩⟩ :=
  ⟨claim_C1_validation_failure_leaves_aggregate_unchanged.1 ⟨[]⟩
      (.deactivatePublisher "a") (.unknownPublisher "a") rfl,
    claim_C1_validation_failure_leaves_aggregate_unchanged.2 ⟨[], ⟨[]⟩, false, ⟨0, 0⟩⟩
      (.routeAuthorizationsUpdate [] [⟨0, ⟨0, 0⟩, none⟩]) (.unknownRoute ⟨0, ⟨0, 0⟩, none⟩) rfl⟩

/-- Claim C3: starting from Active(K1), the key roll sequence KeyRollInit,
certificate receipt for K2, KeyRollActivate, revoke confirmation for K1
drives the resource class key state through RollPending(K2, K1),
RollNew(K2, K1), RollOld(K2, K1) and ends in Active(K2) with K2 the single
current key; and every key state has at most one current key. -/
theorem claim_C3_key_roll_sequence :
    (∀ k1 k2 : Key,
      keyStateStep (.active k1) (.rollInit k2) = some (.rollPending k2 k1) ∧
      keyStateStep (.rollPending k2 k1) (.certReceived k2) = some (.rollNew k2 k1) ∧
      keyStateStep (.rollNew k2 k1) .rollActivate = some (.rollOld k2 k1) ∧
      keyStateStep (.rollOld k2 k1) .revokeConfirmed = some (.active k2) ∧
      currentKeys (.active k2) = [k2]) ∧
    (∀ ks : KeyState, (currentKeys ks).length ≤ 1) := by
  constructor
  · intro k1 k2
    refine ⟨rfl, ?_, rfl, rfl, rfl⟩
    simp [keyStateStep]
  · intro ks
    cases ks <;> simp [currentKeys]

/-- Claim C5: issuing Publish twice in succession yields an empty event list
(empty delta) the second time for every CA: after one Publish the manifest
and CRL are renewed and no changes are pending, so the second Publish is a
no-op that leaves the state unchanged. -/
theorem claim_C5_publish_idempotent (ca : CertAuth) :
    processCaCommand (stepCa ca .publish) .publish = .ok [] ∧
    stepCa (stepCa ca .publish) .publish = stepCa ca .publish := by
  have key : processCaCommand (stepCa ca .publish) .publish = .ok [] := by
    by_cases h : (ca.pendingChanges || needsRefresh ca.mft) = true
    · have h1 : stepCa ca .publish =
          { ca with pendingChanges := false,
                    mft := { ca.mft with remaining := ca.mft.nominal } } := by
        simp [stepCa, processCaCommand, h, applyAllCa, applyCaEvent]
      rw [h1]
      simp [processCaCommand, needsRefresh]
      omega
    · have h1 : processCaCommand ca .publish = .ok [] := by
        simp [processCaCommand, h]
      have h2 : stepCa ca .publish = ca := by
        simp [stepCa, h1, applyAllCa]
      rw [h2]
      exact h1
  refine ⟨key, ?_⟩
  generalize hs : stepCa ca .publish = s1 at key ⊢
  simp [stepCa, key, applyAllCa]

/-- Counterexample for claim C8: the API layer maps ConcurrentModification
to HTTP 400 (BAD_REQUEST), not to 409 (CONFLICT), in
`ErrorToStatus for krill_pubd::Error` (`daemon/src/endpoints.rs` line
330). -/
theorem claim_C8_counterexample :
    statusOfPubdError .concurrentModification = .badRequest ∧
    StatusCode.badRequest ≠ StatusCode.conflict := by
  exact ⟨rfl, by decide⟩

/-- Claim C8 as amended: validation errors map to 400/403,
ConcurrentModification maps to 400, signer, persistence, proxy and
publication-client errors map to 500, and no error maps to 409 or 502. -/
theorem claim_C8_amended_status_mapping :
    statusOfPubdError .invalidBaseUri = .badRequest ∧
    statusOfPubdError .invalidHandle = .badRequest ∧
    statusOfPubdError .duplicatePublisher = .badRequest ∧
    statusOfPubdError .unknownPublisher = .forbidden ∧
    (∀ e, statusOfPublisherError e = .forbidden) ∧
    statusOfPubdError .concurrentModification = .badRequest ∧
    statusOfPubdError .ioError = .internalServerError ∧
    statusOfPubdError .aggregateStoreError = .internalServerError ∧
    statusOfKrillServerError .signerError = .internalServerError ∧
    statusOfKrillServerError .ioError = .internalServerError ∧
    statusOfKrillServerError .proxyServer = .internalServerError ∧
    statusOfKrillServerError .caServerError = .internalServerError ∧
    statusOfKrillServerError .pubClientError = .internalServerError ∧
    (∀ e, statusOfKrillServerError e ≠ .conflict ∧
      statusOfKrillServerError e ≠ .badGateway) := by
  refine ⟨rfl, rfl, rfl, rfl, ?_, rfl, rfl, rfl, rfl, rfl, rfl, rfl, rfl, ?_⟩
  · intro e
    cases e <;> rfl
  · intro e
    cases e with
    | pubServer ep =>
      cases ep with
      | publisherError epp =>
        cases epp <;> simp [statusOfKrillServerError, statusOfPubdError, statusOfPublisherError]
      | rrdpServerError er =>
        cases er
        simp [statusOfKrillServerError, statusOfPubdError, statusOfRrdpServerError]
      | _ => simp [statusOfKrillServerError, statusOfPubdError]
    | _ => simp [statusOfKrillServerError]

/-- The pruning loop's postcondition: with enough fuel, the retained deltas
fit within the snapshot size and the count bound. -/
theorem pruneGo_fits (bound snapSize : Nat) :
    ∀ (n : Nat) (ds : List DeltaRec), ds.length ≤ n →
      deltasSize (pruneGo bound snapSize n ds) ≤ snapSize ∧
      (pruneGo bound snapSize n ds).length ≤ bound := by
  intro n
  induction n with
  | zero =>
    intro ds h
    have hnil : ds = [] := List.eq_nil_of_length_eq_zero (Nat.le_zero.mp h)
    subst hnil
    simp [pruneGo, deltasSize]
  | succ n ih =>
    intro ds h
    rw [pruneGo]
    by_cases hc : deltasSize ds ≤ snapSize ∧ ds.length ≤ bound
    · simp only [if_pos hc]
      exact hc
    · have hlen : ds.dropLast.length ≤ n := by
        have := List.length_dropLast ds
        omega
      simp only [if_neg hc]
      exact ih ds.dropLast hlen

/-- Claim C7: after every successful RRDP publication the serial has
advanced by one and the retained deltas collectively fit within the new
snapshot size and the configured count bound. -/
theorem claim_C7_pruned_deltas_fit (bound : Nat) (s : RrdpState) (delta : List DeltaAtom) :
    deltasSize (publishRrdp bound s delta).deltas ≤
      snapshotSizeOf (publishRrdp bound s delta).snapshot ∧
    (publishRrdp bound s delta).deltas.length ≤ bound ∧
    (publishRrdp bound s delta).serial = s.serial + 1 := by
  have hfit := pruneGo_fits bound (snapshotSizeOf (applyDelta s.snapshot delta))
    (⟨s.serial + 1, delta⟩ :: s.deltas).length (⟨s.serial + 1, delta⟩ :: s.deltas) (Nat.le_refl _)
  exact ⟨hfit.1, hfit.2, rfl⟩

/-- Versions produced by numbering payloads from v are v, v+1, and so on. -/
theorem logVersions_numberFrom {D : Type} (h : Handle) :
    ∀ (ds : List D) (v : Nat), logVersions (numberFrom h v ds) = List.range' v ds.length := by
  intro ds
  induction ds with
  | nil => intro v; rfl
  | cons d ds ih =>
    intro v
    show v :: logVersions (numberFrom h (v + 1) ds) = List.range' v (ds.length + 1)
    rw [ih (v + 1), List.range'_succ]

/-- Numbering preserves the number of events. -/
theorem numberFrom_length {D : Type} (h : Handle) :
    ∀ (ds : List D) (v : Nat), (numberFrom h v ds).length = ds.length := by
  intro ds
  induction ds with
  | nil => intro v; rfl
  | cons d ds ih => intro v; simp [numberFrom, ih]

/-- Claim C2: for every aggregate instance, the init event is persisted with
version 0 and every subsequent committed event's version increments by
exactly 1, so the committed event versions always form the contiguous range
0..n. -/
theorem claim_C2_versions_contiguous {D : Type} (h : Handle)
    (log : List (StoredEventRec D)) (hr : ReachableLog h log) :
    logVersions log = List.range log.length := by
  rw [List.range_eq_range']
  induction hr with
  | init d => rfl
  | @commit log ds _ ih =>
    have hsplit : logVersions (commitEvents h log ds) =
        logVersions log ++ logVersions (numberFrom h log.length ds) := by
      simp [commitEvents, logVersions]
    have hlen : (commitEvents h log ds).length = log.length + ds.length := by
      simp [commitEvents, numberFrom_length]
    rw [hsplit, ih, logVersions_numberFrom, hlen, Nat.add_comm log.length ds.length]
    have happ := List.range'_append_1 0 log.length ds.length
    simpa using happ

/-- Witness for C2: a log built by an init event and one commit of two
events has versions 0, 1, 2. -/
theorem claim_C2_witness :
    logVersions (commitEvents "ta" [iniNew "ta" (0 : Nat)] [1, 2]) =
      List.range (commitEvents "ta" [iniNew "ta" (0 : Nat)] [1, 2]).length :=
  claim_C2_versions_contiguous "ta" _ (ReachableLog.commit [1, 2] (ReachableLog.init 0))

/-- Claim C4: a publish delta containing an atom whose URI is not under the
publisher's jail fails with the UriOutsideJail validation error, no event
is committed, and the publisher's object set (indeed the whole state) is
unchanged. -/
theorem claim_C4_uri_outside_jail_rejected
    (s : PubServerState) (h : Handle) (p : Publisher) (delta : List DeltaAtom)
    (hfind : findPublisher s h = some p)
    (hact : p.deactivated = false)
    (hbad : delta.any (fun a => !(uriUnder a.atomUri p.jailUri)) = true) :
    (∃ u, processPubCommand s (.publishDelta h delta) =
        .error (.verification (.uriOutsideJail u p.jailUri)) ∧
      uriUnder u p.jailUri = false) ∧
    stepPub s (.publishDelta h delta) = s := by
  have hsome : (delta.find? (fun a => !(uriUnder a.atomUri p.jailUri))).isSome := by
    rw [List.find?_isSome]
    exact List.any_eq_true.mp hbad
  obtain ⟨a, ha⟩ := Option.isSome_iff_exists.mp hsome
  have hpa := List.find?_some ha
  have hverify : verifyDelta p delta = some (.uriOutsideJail a.atomUri p.jailUri) := by
    unfold verifyDelta
    rw [ha]
  have hproc : processPubCommand s (.publishDelta h delta) =
      .error (.verification (.uriOutsideJail a.atomUri p.jailUri)) := by
    simp [processPubCommand, hfind, hact, hverify]
  refine ⟨⟨a.atomUri, hproc, by simpa using hpa⟩, ?_⟩
  simp [stepPub, hproc]

/-- Witness for C4: publisher alice jailed under repo/alice tries to publish
under repo/bob and is rejected with UriOutsideJail, state unchanged. -/
theorem claim_C4_witness :
    (∃ u, processPubCommand ⟨[⟨"alice", ["repo", "alice"], false, []⟩]⟩
        (.publishDelta "alice" [.publish ["repo", "bob", "x"] [1]]) =
        .error (.verification (.uriOutsideJail u ["repo", "alice"])) ∧
      uriUnder u ["repo", "alice"] = false) ∧
    stepPub ⟨[⟨"alice", ["repo", "alice"], false, []⟩]⟩
      (.publishDelta "alice" [.publish ["repo", "bob", "x"] [1]]) =
      ⟨[⟨"alice", ["repo", "alice"], false, []⟩]⟩ :=
  claim_C4_uri_outside_jail_rejected
    ⟨[⟨"alice", ["repo", "alice"], false, []⟩]⟩ "alice"
    ⟨"alice", ["repo", "alice"], false, []⟩
    [.publish ["repo", "bob", "x"] [1]] (by decide) (by decide) (by decide)

/-- Lookup after the deactivation map finds the deactivated record. -/
theorem find_deactivated (h : Handle) :
    ∀ l : List Publisher,
      List.find? (fun p => p.handle = h)
        (l.map (fun p => if p.handle = h
          then { p with deactivated := true, objects := [] } else p)) =
      (List.find? (fun p => p.handle = h) l).map
        (fun p => { p with deactivated := true, objects := [] }) := by
  intro l
  induction l with
  | nil => rfl
  | cons q l ih =>
    by_cases hq : q.handle = h
    · simp [hq]
    · simp [hq, ih]

/-- Claim C9: for every known publisher, DeactivatePublisher emits a
PublisherDeactivated event scheduling withdraws for all its current
objects, and afterwards the publisher record is still retrievable, marked
deactivated. -/
theorem claim_C9_deactivate_marks_inactive_and_withdraws
    (s : PubServerState) (h : Handle) (p : Publisher)
    (hfind : findPublisher s h = some p) :
    processPubCommand s (.deactivatePublisher h) =
      .ok [.publisherDeactivated h (p.objects.map (fun o => (o.uri, o.hash)))] ∧
    findPublisher (stepPub s (.deactivatePublisher h)) h =
      some { p with deactivated := true, objects := [] } := by
  have hproc : processPubCommand s (.deactivatePublisher h) =
      .ok [.publisherDeactivated h (p.objects.map (fun o => (o.uri, o.hash)))] := by
    simp [processPubCommand, hfind]
  have hstep : stepPub s (.deactivatePublisher h) =
      setPublisher s h (fun q => { q with deactivated := true, objects := [] }) := by
    simp [stepPub, hproc, applyAllPub, applyPubEvent]
  refine ⟨hproc, ?_⟩
  rw [hstep]
  unfold findPublisher setPublisher
  rw [find_deactivated]
  unfold findPublisher at hfind
  rw [hfind]
  rfl

/-- Witness for C9: deactivating alice, who publishes one object, succeeds,
schedules that object's withdraw, and leaves alice retrievable as
deactivated. -/
theorem claim_C9_witness :
    processPubCommand ⟨[⟨"alice", ["r", "alice"], false, [⟨["r", "alice", "a"], [7]⟩]⟩]⟩
      (.deactivatePublisher "alice") =
      .ok [.publisherDeactivated "alice" [(["r", "alice", "a"], hashOf [7])]] ∧
    findPublisher
      (stepPub ⟨[⟨"alice", ["r", "alice"], false, [⟨["r", "alice", "a"], [7]⟩]⟩]⟩
        (.deactivatePublisher "alice")) "alice" =
      some ⟨"alice", ["r", "alice"], true, []⟩ :=
  claim_C9_deactivate_marks_inactive_and_withdraws
    ⟨[⟨"alice", ["r", "alice"], false, [⟨["r", "alice", "a"], [7]⟩]⟩]⟩ "alice"
    ⟨"alice", ["r", "alice"], false, [⟨["r", "alice", "a"], [7]⟩]⟩ (by decide)

/-- keyIn is boolean membership. -/
theorem keyIn_eq_true_iff (S : List RouteAuthorization) (a : RouteAuthorization) :
    keyIn S a = true ↔ a ∈ S := by
  unfold keyIn
  rw [List.any_eq_true]
  constructor
  · rintro ⟨x, hx, hxa⟩
    have hx2 : x = a := by simpa using hxa
    exact hx2 ▸ hx
  · intro ha
    exact ⟨a, ha, by simp⟩

/-- Folding removals equals one filter throwing away every removed key. -/
theorem foldl_removeRoa_eq_filter :
    ∀ (R : List RouteAuthorization) (l : List (RouteAuthorization × RoaInfo)),
      R.foldl removeRoa l = l.filter (fun p => !(keyIn R p.1)) := by
  intro R
  induction R with
  | nil =>
    intro l
    simp [keyIn]
  | cons a R ih =>
    intro l
    rw [List.foldl_cons, ih (removeRoa l a)]
    unfold removeRoa
    rw [List.filter_filter]
    apply List.filter_congr
    intro p _
    unfold keyIn
    rw [List.any_cons]
    by_cases hp : p.1 = a
    · simp [hp]
    · simp [hp, Ne.symm hp]

/-- Replacing the binding of a key that is going to be filtered out does not
change the filtered list. -/
theorem filter_map_replaceRoa (S0 : List RouteAuthorization)
    (kv : RouteAuthorization × RoaInfo) (hk : keyIn S0 kv.1 = true) :
    ∀ l : List (RouteAuthorization × RoaInfo),
      ((l.map (fun p => if p.1 = kv.1 then kv else p)).filter (fun p => !(keyIn S0 p.1))) =
        l.filter (fun p => !(keyIn S0 p.1)) := by
  intro l
  induction l with
  | nil => rfl
  | cons q l ih =>
    by_cases hq : q.1 = kv.1
    · simp [List.filter_cons, hq, hk, ih]
    · simp [List.filter_cons, hq, ih]

/-- Inserting a binding whose key is filtered out does not change the
filtered list. -/
theorem filter_insertRoa (S0 : List RouteAuthorization)
    (kv : RouteAuthorization × RoaInfo) (hk : keyIn S0 kv.1 = true)
    (l : List (RouteAuthorization × RoaInfo)) :
    (insertRoa l kv).filter (fun p => !(keyIn S0 p.1)) =
      l.filter (fun p => !(keyIn S0 p.1)) := by
  unfold insertRoa
  by_cases hp : l.any (fun p => p.1 = kv.1)
  · simp only [hp, if_true]
    exact filter_map_replaceRoa S0 kv hk l
  · simp only [hp, Bool.false_eq_true, if_false]
    rw [List.filter_append]
    simp [hk]

/-- Folding inserts whose keys all lie in S0 does not change the list
filtered by exclusion of S0. -/
theorem filter_foldl_insertRoa (S0 : List RouteAuthorization) :
    ∀ (T : List RouteAuthorization) (l : List (RouteAuthorization × RoaInfo)),
      (∀ a ∈ T, keyIn S0 a = true) →
      (((T.map (fun a => (a, mkRoaInfo a))).foldl insertRoa l).filter
          (fun p => !(keyIn S0 p.1))) =
        l.filter (fun p => !(keyIn S0 p.1)) := by
  intro T
  induction T with
  | nil => intro l _; rfl
  | cons a T ih =>
    intro l hT
    rw [List.map_cons, List.foldl_cons]
    rw [ih (insertRoa l (a, mkRoaInfo a)) (fun x hx => hT x (List.mem_cons_of_mem a hx))]
    exact filter_insertRoa S0 (a, mkRoaInfo a) (hT a (List.mem_cons_self a T)) l

/-- Filtering away keys disjoint from the list is the identity. -/
theorem filter_not_keyIn_of_disjoint (S0 : List RouteAuthorization)
    (l : List (RouteAuthorization × RoaInfo))
    (hd : ∀ p ∈ l, keyIn S0 p.1 = false) :
    l.filter (fun p => !(keyIn S0 p.1)) = l := by
  rw [List.filter_eq_self]
  intro p hp
  simp [hd p hp]

/-- Claim C6: processing RouteAuthorizationsUpdate(add = S, remove = empty)
followed by RouteAuthorizationsUpdate(add = empty, remove = S), both
successfully, restores the prior ROA map (hence the same set of RoaInfo
hashes). -/
theorem claim_C6_route_update_round_trip
    (ca : CertAuth) (S : List RouteAuthorization) (e1 e2 : List CaEvent)
    (h1 : processCaCommand ca (.routeAuthorizationsUpdate S []) = .ok e1)
    (h2 : processCaCommand (applyAllCa ca e1) (.routeAuthorizationsUpdate [] S) = .ok e2) :
    (applyAllCa (applyAllCa ca e1) e2).roas = ca.roas := by
  rcases hdup : S.find? (fun a => roasHas ca.roas a) with _ | a
  · rcases hres : S.find? (fun a => !(ca.resources.any (fun r => pfxContains r a.pfx))) with _ | b
    · simp only [processCaCommand, hdup, hres, List.find?_nil] at h1
      injection h1 with h1
      subst h1
      rcases hrem : S.find? (fun a =>
          !(roasHas (applyAllCa ca
            [CaEvent.roasUpdated ⟨S.map (fun a => (a, mkRoaInfo a)), []⟩]).roas a)) with _ | c
      · simp only [processCaCommand, List.find?_nil, hrem] at h2
        injection h2 with h2
        subst h2
        have hdisj : ∀ p ∈ ca.roas.inner, keyIn S p.1 = false := by
          intro p hp
          by_cases hk : keyIn S p.1 = true
          · exfalso
            have hmem := (keyIn_eq_true_iff S p.1).mp hk
            have hnot := List.find?_eq_none.mp hdup p.1 hmem
            apply hnot
            show roasHas ca.roas p.1 = true
            unfold roasHas
            rw [List.any_eq_true]
            exact ⟨p, hp, by simp⟩
          · simpa using hk
        have hin : ∀ a ∈ S, keyIn S a = true := by
          intro a ha
          exact (keyIn_eq_true_iff S a).mpr ha
        show ((applyAllCa ca
            [CaEvent.roasUpdated ⟨S.map (fun a => (a, mkRoaInfo a)), []⟩]).roas.updated
              ⟨[], S⟩) = ca.roas
        simp only [applyAllCa, List.foldl_cons, List.foldl_nil, applyCaEvent]
        unfold Roas.updated
        simp only [List.map_nil, List.foldl_nil]
        rw [foldl_removeRoa_eq_filter, filter_foldl_insertRoa S S _ hin,
          filter_not_keyIn_of_disjoint S ca.roas.inner hdisj]
      · simp [processCaCommand, hrem] at h2
    · simp [processCaCommand, hdup, hres] at h1
  · simp [processCaCommand, hdup] at h1

/-- Witness for C6: adding one authorization then removing it again restores
the empty ROA map. -/
theorem claim_C6_witness :
    (applyAllCa
        (applyAllCa ⟨[⟨0, 0⟩], ⟨[]⟩, false, ⟨0, 0⟩⟩
          [.roasUpdated ⟨[(⟨64496, ⟨0, 24⟩, none⟩, mkRoaInfo ⟨64496, ⟨0, 24⟩, none⟩)], []⟩])
        [.roasUpdated ⟨[], [⟨64496, ⟨0, 24⟩, none⟩]⟩]).roas =
      (⟨[⟨0, 0⟩], ⟨[]⟩, false, ⟨0, 0⟩⟩ : CertAuth).roas :=
  claim_C6_route_update_round_trip ⟨[⟨0, 0⟩], ⟨[]⟩, false, ⟨0, 0⟩⟩
    [⟨64496, ⟨0, 24⟩, none⟩]
    [.roasUpdated ⟨[(⟨64496, ⟨0, 24⟩, none⟩, mkRoaInfo ⟨64496, ⟨0, 24⟩, none⟩)], []⟩]
    [.roasUpdated ⟨[], [⟨64496, ⟨0, 24⟩, none⟩]⟩]
    rfl rfl

/-- After filtering a handle out of the publisher list it is no longer
contained. -/
theorem contains_filter_ne (h : Handle) :
    ∀ l : List Handle, (l.filter (fun x => x ≠ h)).contains h = false := by
  intro l
  induction l with
  | nil => rfl
  | cons q l ih =>
    by_cases hq : q = h
    · simp [List.filter_cons, hq, ih]
    · simp [List.filter_cons, hq, List.contains_cons, ih, Ne.symm hq]

/-- Applying the deactivation update twice equals applying it once. -/
theorem setPublisher_deactivate_idem (ps : PubServerState) (h : Handle) :
    setPublisher (setPublisher ps h
        (fun q => { q with deactivated := true, objects := [] })) h
      (fun q => { q with deactivated := true, objects := [] }) =
    setPublisher ps h (fun q => { q with deactivated := true, objects := [] }) := by
  unfold setPublisher
  congr 1
  rw [List.map_map]
  apply List.map_congr_left
  intro p _
  by_cases hp : p.handle = h
  · simp [Function.comp, hp]
  · simp [Function.comp, hp]

/-- Claim C10: removing or deactivating a publisher whose handle is unknown
answers an empty OK instead of an error (the UnknownPublisher error is
swallowed), and removal/deactivation is idempotent at the API: a second
application answers OK and leaves the state where the first application put
it. -/
theorem claim_C10_publisher_removal_idempotent :
    (∀ (s : KrilldState) (h : Handle), s.publishers.contains h = false →
      remove_publisher s h = (s, .okEmpty)) ∧
    (∀ (s : KrilldState) (h : Handle),
      remove_publisher (remove_publisher s h).1 h = ((remove_publisher s h).1, .okEmpty) ∧
      (remove_publisher s h).2 = .okEmpty) ∧
    (∀ (ps : PubServerState) (h : Handle), findPublisher ps h = none →
      deactivate_publisher_api ps h = (ps, .okEmpty)) ∧
    (∀ (ps : PubServerState) (h : Handle),
      (deactivate_publisher_api (deactivate_publisher_api ps h).1 h).1 =
        (deactivate_publisher_api ps h).1 ∧
      (deactivate_publisher_api (deactivate_publisher_api ps h).1 h).2 = .okEmpty) := by
  have hunknown : ∀ (s : KrilldState) (h : Handle), s.publishers.contains h = false →
      remove_publisher s h = (s, .okEmpty) := by
    intro s h hc
    have hm : h ∉ s.publishers := by simpa using hc
    simp [remove_publisher, removePublisherInner, hm]
  refine ⟨hunknown, ?_, ?_, ?_⟩
  · intro s h
    by_cases hc : s.publishers.contains h = true
    · have hm : h ∈ s.publishers := by simpa using hc
      have h1 : remove_publisher s h = (⟨s.publishers.filter (fun x => x ≠ h)⟩, .okEmpty) := by
        simp [remove_publisher, removePublisherInner, hm]
      rw [h1]
      exact ⟨hunknown _ h (contains_filter_ne h s.publishers), rfl⟩
    · have hcf : s.publishers.contains h = false := by simpa using hc
      rw [hunknown s h hcf]
      exact ⟨hunknown s h hcf, rfl⟩
  · intro ps h hn
    simp [deactivate_publisher_api, processPubCommand, hn]
  · intro ps h
    rcases hf : findPublisher ps h with _ | p
    · have hd : deactivate_publisher_api ps h = (ps, .okEmpty) := by
        simp [deactivate_publisher_api, processPubCommand, hf]
      rw [hd]
      rw [hd]
      exact ⟨rfl, rfl⟩
    · have hd1 : deactivate_publisher_api ps h =
          (setPublisher ps h (fun q => { q with deactivated := true, objects := [] }),
            .okEmpty) := by
        simp [deactivate_publisher_api, processPubCommand, hf, applyAllPub, applyPubEvent]
      have hf2 : findPublisher
          (setPublisher ps h (fun q => { q with deactivated := true, objects := [] })) h =
          some { p with deactivated := true, objects := [] } := by
        unfold findPublisher setPublisher
        rw [find_deactivated]
        unfold findPublisher at hf
        rw [hf]
        rfl
      have hd2 : deactivate_publisher_api
          (setPublisher ps h (fun q => { q with deactivated := true, objects := [] })) h =
          (setPublisher (setPublisher ps h
              (fun q => { q with deactivated := true, objects := [] })) h
            (fun q => { q with deactivated := true, objects := [] }), .okEmpty) := by
        simp [deactivate_publisher_api, processPubCommand, hf2, applyAllPub, applyPubEvent]
      rw [hd1]
      constructor
      · show (deactivate_publisher_api _ h).1 = _
        rw [hd2]
        exact setPublisher_deactivate_idem ps h
      · show (deactivate_publisher_api _ h).2 = _
        rw [hd2]

/-- Witness for C10: removing the unknown publisher bob from a server that
only knows alice answers OK and changes nothing; removing alice twice ends
as removing her once; deactivating bob on an empty Publication Server
answers OK; deactivating alice twice equals deactivating her once. -/
theorem claim_C10_witness :
    remove_publisher ⟨["alice"]⟩ "bob" = (⟨["alice"]⟩, .okEmpty) ∧
    remove_publisher (remove_publisher ⟨["alice"]⟩ "alice").1 "alice" =
      ((remove_publisher ⟨["alice"]⟩ "alice").1, .okEmpty) ∧
    deactivate_publisher_api ⟨[]⟩ "bob" = (⟨[]⟩, .okEmpty) ∧
    (deactivate_publisher_api
        (deactivate_publisher_api ⟨[⟨"alice", ["r"], false, []⟩]⟩ "alice").1 "alice").1 =
      (deactivate_publisher_api ⟨[⟨"alice", ["r"], false, []⟩]⟩ "alice").1 :=
  ⟨claim_C10_publisher_removal_idempotent.1 ⟨["alice"]⟩ "bob" (by decide),
    (claim_C10_publisher_removal_idempotent.2.1 ⟨["alice"]⟩ "alice").1,
    claim_C10_publisher_removal_idempotent.2.2.1 ⟨[]⟩ "bob" rfl,
    (claim_C10_publisher_removal_idempotent.2.2.2 ⟨[⟨"alice", ["r"], false, []⟩]⟩ "alice").1⟩

end KrillModel
